import Mathlib

/-!
Verification of the yscp-line-bot event pipeline against its specification.

The JavaScript services are shallowly embedded as pure Lean functions:
  * `src/services/eventStorageService.js` — durable history, ephemeral store
  * `src/services/eventQueueService.js`   — dedup, priority queue, rate limit,
    delivery fan-out
  * `src/controllers/lineBotController.js` — webhook handler

JavaScript conventions are modelled explicitly: optional / missing fields
become `Option`, and JS truthiness (`undefined`, `null`, `""`, `0` are falsy)
is captured by the `truthyS` / `truthyI` helpers.  Timestamps are `Int`
(milliseconds since epoch, as returned by `Date.now()`).
-/

namespace YSCP

/-- JS truthiness for an optional string: `undefined`, `null` and `""` are
falsy; `x || null` on such a value yields `truthyS x`. -/
def truthyS : Option String → Option String
  | some s => if s = "" then none else some s
  | none => none

/-- JS truthiness for an optional number: `undefined`, `null` and `0` are
falsy; `x || null` on such a value yields `truthyI x`. -/
def truthyI : Option Int → Option Int
  | some i => if i = 0 then none else some i
  | none => none

/-- `Map.get` on a JS `Map` embedded as an association list. -/
def jsMapGet {α : Type} (m : List (String × α)) (k : String) : Option α :=
  (m.find? (fun p => p.1 == k)).map (fun p => p.2)

/-- `Map.set` on a JS `Map` embedded as an association list: replaces in
place when the key is present, otherwise appends (JS insertion order). -/
def jsMapSet {α : Type} (m : List (String × α)) (k : String) (v : α) :
    List (String × α) :=
  if m.any (fun p => p.1 == k) then
    m.map (fun p => if p.1 == k then (k, v) else p)
  else
    m ++ [(k, v)]

/-- `alarmResult.faces.identify.candidate` of an event payload. -/
structure Candidate where
  name : Option String
  similarity : Option Int
  deriving DecidableEq

/-- The opaque `data` payload of an inbound event, restricted to the fields
the services read. -/
structure EventPayload where
  picUri : Option String
  eventPicUri : Option String
  facesURL : Option String
  candidate : Option Candidate
  deriving DecidableEq

/-- An inbound HCP event (`eventData` throughout the services).  `storedAt`
and `imageUrl` are set by the storage layer; producers leave them absent. -/
structure EventData where
  eventId : Option String
  ability : Option String
  eventType : Option Int
  happenTime : Option Int
  srcName : Option String
  srcType : Option String
  eventPicUri : Option String
  storedAt : Option Int
  imageUrl : Option String
  data : Option EventPayload
  deriving DecidableEq

/-- The `imageSources` block computed in `appendEventToHistory`. -/
structure ImageSources where
  picUri : Option String
  faceUrl : Option String
  eventPicUri : Option String
  deriving DecidableEq

/-- The `meta` block computed in `appendEventToHistory`. -/
structure EventMeta where
  name : Option String
  similarity : Option Int
  deriving DecidableEq

/-- One record of the durable history document (`historyItem`). -/
structure HistoryItem where
  eventId : String
  ability : Option String
  eventType : Option Int
  happenTime : Option Int
  srcName : Option String
  srcType : Option String
  storedAt : Int
  imageUrl : Option String
  imageSources : Option ImageSources
  meta : Option EventMeta
  deriving DecidableEq

/-- The durable history document `{ events, lastUpdated }`. -/
structure HistoryData where
  events : List HistoryItem
  lastUpdated : Option Int
  deriving DecidableEq

/-- `this.maxHistorySize = 300` in `eventStorageService.js`. -/
def maxHistorySize : Nat := 300

/-- `this.eventTTL = 7 * 24 * 60 * 60 * 1000` in `eventStorageService.js`. -/
def eventTTL : Int := 7 * 24 * 60 * 60 * 1000

/-- The fresh document written by `ensureHistoryFile`. -/
def emptyHistory : HistoryData := { events := [], lastUpdated := none }

/-- The `imageSources` computed at the top of `appendEventToHistory`:
`{ picUri: data?.picUri || null, faceUrl: data?.alarmResult?.faces?.URL ||
null, eventPicUri: eventData?.eventPicUri || eventData?.data?.eventPicUri ||
null }`. -/
def mkImageSources (e : EventData) : ImageSources :=
  { picUri := truthyS (e.data.bind (fun d => d.picUri))
    faceUrl := truthyS (e.data.bind (fun d => d.facesURL))
    eventPicUri :=
      truthyS e.eventPicUri <|> truthyS (e.data.bind (fun d => d.eventPicUri)) }

/-- The `meta` computed in `appendEventToHistory` from
`data?.alarmResult?.faces?.identify?.candidate`. -/
def mkEventMeta (e : EventData) : Option EventMeta :=
  match e.data.bind (fun d => d.candidate) with
  | none => none
  | some c =>
      some { name := truthyS c.name, similarity := c.similarity }

/-- The `historyItem` object built in `appendEventToHistory` for an event
whose (truthy) id is `eid`, at wall-clock time `now`. -/
def mkHistoryItem (e : EventData) (eid : String) (now : Int) : HistoryItem :=
  let isrc := mkImageSources e
  let m := mkEventMeta e
  { eventId := eid
    ability := truthyS e.ability
    eventType := truthyI e.eventType
    happenTime := truthyI e.happenTime
    srcName := truthyS e.srcName
    srcType := truthyS e.srcType
    storedAt := (truthyI e.storedAt).getD now
    imageUrl := truthyS e.imageUrl
    imageSources :=
      if isrc.picUri.isSome || isrc.faceUrl.isSome || isrc.eventPicUri.isSome
      then some isrc else none
    meta :=
      match m with
      | some mm =>
          if mm.name.isSome || mm.similarity.isSome then some mm else none
      | none => none }

/-- `appendEventToHistory(eventData)` of `eventStorageService.js`: no-op when
`eventData.eventId` is falsy; otherwise prepends the projected record and
truncates to `maxHistorySize`, stamping `lastUpdated`. -/
def appendEventToHistory (e : EventData) (now : Int) (h : HistoryData) :
    HistoryData :=
  match truthyS e.eventId with
  | none => h
  | some eid =>
      let events := mkHistoryItem e eid now :: h.events
      let events :=
        if events.length > maxHistorySize then events.take maxHistorySize
        else events
      { events := events, lastUpdated := some now }

/-- The result shape of `getEventHistory`. -/
structure HistoryListResult where
  list : List HistoryItem
  total : Nat
  lastUpdated : Option Int
  deriving DecidableEq

/-- `getEventHistory({page, pageSize, ability, eventType})` of
`eventStorageService.js`.  `page`/`pageSize` are integers already (the JS
`Number.isInteger` test); non-positive values fall back to 1 / 10.  A falsy
`ability` filter and an absent `eventType` filter are `none`. -/
def getEventHistory (page pageSize : Int) (ability : Option String)
    (eventType : Option Int) (h : HistoryData) : HistoryListResult :=
  let list := h.events
  let list :=
    match truthyS ability with
    | some a => list.filter (fun (ev : HistoryItem) => ev.ability == some a)
    | none => list
  let list :=
    match eventType with
    | some t => list.filter (fun (ev : HistoryItem) => ev.eventType.getD 0 == t)
    | none => list
  let validPage : Int := if 0 < page then page else 1
  let validPageSize : Int := if 0 < pageSize then pageSize else 10
  let startIndex := ((validPage - 1) * validPageSize).toNat
  { list := (list.drop startIndex).take validPageSize.toNat
    total := list.length
    lastUpdated := h.lastUpdated }

/-- The ephemeral store `this.eventStorage` (a JS `Map` keyed by eventId). -/
def EventStore : Type := List (String × EventData)

instance : DecidableEq EventStore := by
  unfold EventStore
  infer_instance

/-- `storeEvent(eventData)` of `eventStorageService.js`: refuses an event
with a falsy `eventId` (returns `false`, store untouched); otherwise stores
the event stamped with `storedAt` and a normalized `imageUrl`. -/
def storeEvent (e : EventData) (now : Int) (m : EventStore) :
    Bool × EventStore :=
  match truthyS e.eventId with
  | none => (false, m)
  | some eid =>
      (true, jsMapSet m eid
        { e with storedAt := some now, imageUrl := truthyS e.imageUrl })

/-- `getEvent(eventId)` of `eventStorageService.js`: TTL-checked lookup in
the ephemeral store; an expired entry is deleted and `null` returned.  The
id is the raw (possibly `undefined`) `eventData.eventId`. -/
def getEvent (eventId : Option String) (now : Int) (m : EventStore) :
    Option EventData × EventStore :=
  match eventId with
  | none => (none, m)
  | some eid =>
      match jsMapGet m eid with
      | none => (none, m)
      | some e =>
          let expired : Bool :=
            match e.storedAt with
            | some s => decide (now - s > eventTTL)
            | none => false
          if expired then (none, m.filter (fun p => p.1 != eid))
          else (some e, m)

/-- The per-record rewrite `event => event.eventId === eventId ?
{...event, imageUrl} : event` inside `updateEventImage`: a matching record
gets exactly its `imageUrl` field replaced, any other record is returned
as-is. -/
def setImageOn (eid url : String) (ev : HistoryItem) : HistoryItem :=
  if ev.eventId == eid then { ev with imageUrl := some url } else ev

/-- `updateEventImage(eventId, imageUrl)` of `eventStorageService.js`:
guarded by JS truthiness of both arguments; updates the ephemeral entry in
place when present, and rewrites `imageUrl` on every matching history record,
stamping `lastUpdated` only when some record matched. -/
def updateEventImage (eventId imageUrl : Option String) (now : Int)
    (m : EventStore) (h : HistoryData) : EventStore × HistoryData :=
  match truthyS eventId, truthyS imageUrl with
  | some eid, some url =>
      let m :=
        match jsMapGet m eid with
        | some cur => jsMapSet m eid { cur with imageUrl := some url }
        | none => m
      let events := h.events.map (setImageOn eid url)
      let changed := h.events.any (fun ev => ev.eventId == eid)
      if changed then (m, { events := events, lastUpdated := some now })
      else (m, h)
  | _, _ => (m, h)

/-! ## `eventQueueService.js` -/

/-- `this.eventDeduplicationTTL = 60000` (60 s). -/
def eventDeduplicationTTL : Int := 60000

/-- `this.minSendInterval = 5000` (5 s). -/
def minSendInterval : Int := 5000

/-- The dedup map `this.processedEvents : Map eventId → lastSeenAt`. -/
def DedupMap : Type := List (String × Int)

instance : DecidableEq DedupMap := by
  unfold DedupMap
  infer_instance

/-- `isDuplicateEvent(eventData)` of `eventQueueService.js`: an event with a
falsy `eventId` is never a duplicate; a recorded time `t` suppresses the
event when `t` is truthy and `now - t < TTL` (without refreshing `t`);
otherwise the current time is recorded and `false` returned. -/
def isDuplicateEvent (e : EventData) (now : Int) (m : DedupMap) :
    Bool × DedupMap :=
  match truthyS e.eventId with
  | none => (false, m)
  | some eid =>
      match jsMapGet m eid with
      | some t =>
          if t != 0 && decide (now - t < eventDeduplicationTTL) then (true, m)
          else (false, jsMapSet m eid now)
      | none => (false, jsMapSet m eid now)

/-- The external `getEventTypeConfig(eventType)` result (opaque collaborator,
see spec §6: `TypeConfig.get(eventType) -> {name, priority?, ability?}`). -/
structure EventTypeConfig where
  name : Option String
  priority : Option String
  ability : Option String
  deriving DecidableEq

/-- `calculateEventPriority(eventData)` of `eventQueueService.js`, with the
external type-config lookup result passed in: a truthy declared priority is
returned verbatim except that `"medium"` maps to `"normal"`; otherwise
`"normal"`. -/
def calculateEventPriority (cfg : Option EventTypeConfig) : String :=
  match cfg with
  | some c =>
      match truthyS c.priority with
      | some p => if p == "medium" then "normal" else p
      | none => "normal"
  | none => "normal"

/-- A queued item (`eventItem` in `enqueueEvent`); the `processor` closure is
behaviourally irrelevant and omitted. -/
structure EventItem where
  data : EventData
  enqueuedAt : Int
  priority : String
  deriving DecidableEq

/-- The queue-relevant state of `EventQueueService`: the two lanes and the
dedup map. -/
structure QueueState where
  eventQueue : List EventItem
  priorityQueue : List EventItem
  processedEvents : DedupMap
  deriving DecidableEq

/-- The freshly constructed service. -/
def initQueueState : QueueState :=
  { eventQueue := [], priorityQueue := [], processedEvents := [] }

/-- `enqueueEvent(eventData, priority)` of `eventQueueService.js`: duplicate
events are refused; otherwise the item joins the back of the priority lane
when `priority === "high"`, else the back of the normal lane. -/
def enqueueEvent (e : EventData) (priority : String) (now : Int)
    (s : QueueState) : Bool × QueueState :=
  match isDuplicateEvent e now s.processedEvents with
  | (true, m) => (false, { s with processedEvents := m })
  | (false, m) =>
      let item : EventItem := { data := e, enqueuedAt := now, priority := priority }
      if priority == "high" then
        (true, { s with processedEvents := m,
                        priorityQueue := s.priorityQueue ++ [item] })
      else
        (true, { s with processedEvents := m,
                        eventQueue := s.eventQueue ++ [item] })

/-- `getNextEvent()` of `eventQueueService.js`: shift from the priority lane
if non-empty, else from the normal lane, else `null`. -/
def getNextEvent (s : QueueState) : Option EventItem × QueueState :=
  match s.priorityQueue with
  | item :: rest => (some item, { s with priorityQueue := rest })
  | [] =>
      match s.eventQueue with
      | item :: rest => (some item, { s with eventQueue := rest })
      | [] => (none, s)

/-- One externally visible operation on the queue: an `enqueueEvent` call
(with its wall-clock time) or one dispatch decision of the processing loop
(`getNextEvent`). -/
inductive QueueOp where
  | enq (e : EventData) (priority : String) (now : Int)
  | disp
  deriving DecidableEq

/-- One step of a queue run, accumulating the dispatched items in order. -/
def queueStep (sl : QueueState × List EventItem) (op : QueueOp) :
    QueueState × List EventItem :=
  match op with
  | .enq e p t => ((enqueueEvent e p t sl.1).2, sl.2)
  | .disp =>
      match getNextEvent sl.1 with
      | (some item, s) => (s, sl.2 ++ [item])
      | (none, s) => (s, sl.2)

/-- Run a sequence of queue operations from the initial state, returning the
final state and the dispatch log. -/
def runQueue (ops : List QueueOp) : QueueState × List EventItem :=
  ops.foldl queueStep (initQueueState, [])

/-- The items a run of operations accepts into the queue (enqueue calls that
pass the duplicate check), in order, together with the dedup map: the
reference trace the lanes are compared against. -/
def acceptedStep (sl : DedupMap × List EventItem) (op : QueueOp) :
    DedupMap × List EventItem :=
  match op with
  | .enq e p t =>
      match isDuplicateEvent e t sl.1 with
      | (true, m) => (m, sl.2)
      | (false, m) => (m, sl.2 ++ [{ data := e, enqueuedAt := t, priority := p }])
  | .disp => sl

/-- All items accepted by a run, in acceptance order. -/
def acceptedItems (ops : List QueueOp) : List EventItem :=
  (ops.foldl acceptedStep ([], [])).2

/-- Whether an item lives in the priority lane (`priority === "high"`). -/
def isHighItem (it : EventItem) : Bool := it.priority == "high"

/-! ### Rate limiter -/

/-- `enforceRateLimit()` of `eventQueueService.js`, run to completion without
interference: given the shared `lastSendTime` and the call's start time,
returns the admission time (the moment the method returns and the caller may
push) paired with the updated `lastSendTime`.  The `setTimeout` timer is
modelled as resuming exactly after the computed wait. -/
def enforceRateLimit (lastSendTime start : Int) : Int × Int :=
  let timeSinceLastSend := start - lastSendTime
  if timeSinceLastSend < minSendInterval then
    let t := start + (minSendInterval - timeSinceLastSend)
    (t, t)
  else
    (start, start)

/-- The shared state of the rate limiter together with the calls currently
suspended inside `await setTimeout`.  `pendingA`/`pendingB` hold the timer
resume times of two concurrent processing paths. -/
structure RLMachine where
  lastSendTime : Int
  pendingA : Option Int
  pendingB : Option Int
  admissions : List Int
  deriving DecidableEq

/-- Task `A` (if `which`) or `B` invokes `enforceRateLimit` at time `t`: the
synchronous prefix reads `lastSendTime`; if no wait is needed the method
completes atomically (no `await` is executed) and the call is admitted at
`t`; otherwise the task suspends until its timer fires. -/
def rlCall (which : Bool) (t : Int) (s : RLMachine) : RLMachine :=
  let timeSinceLastSend := t - s.lastSendTime
  if timeSinceLastSend < minSendInterval then
    let resume := t + (minSendInterval - timeSinceLastSend)
    if which then { s with pendingA := some resume }
    else { s with pendingB := some resume }
  else
    { s with lastSendTime := t, admissions := s.admissions ++ [t] }

/-- The suspended task's timer fires: it writes `Date.now()` (its resume
time) to `lastSendTime` and is admitted. -/
def rlFinish (which : Bool) (s : RLMachine) : RLMachine :=
  match (if which then s.pendingA else s.pendingB) with
  | none => s
  | some r =>
      { lastSendTime := r
        pendingA := if which then none else s.pendingA
        pendingB := if which then s.pendingB else none
        admissions := s.admissions ++ [r] }

/-- The limiter state at process start (`this.lastSendTime = 0`). -/
def initRLMachine : RLMachine :=
  { lastSendTime := 0, pendingA := none, pendingB := none, admissions := [] }

/-! ### Delivery fan-out (`sendEventNotification`) -/

/-- One roster entry as stored in `user-management.json` under `users`. -/
structure RosterUser where
  role : Option String
  id : Option String
  userId : Option String
  deriving DecidableEq

/-- `sendEventNotification`'s target resolution: keep entries whose user is
non-null with role `admin` or `target`, take `u.id || u.userId || key`, and
`filter(Boolean)`. -/
def resolveTargets (entries : List (String × Option RosterUser)) :
    List String :=
  (entries.filter (fun p =>
      match p.2 with
      | some u => u.role == some "admin" || u.role == some "target"
      | none => false)).filterMap (fun p =>
    match p.2 with
    | some u => truthyS u.id <|> truthyS u.userId <|> truthyS (some p.1)
    | none => none)

/-- Per-target outcome `{targetId, success, error?}` captured by the
`.then`/`.catch` pair around `pushMessage`. -/
structure PushResult where
  targetId : String
  success : Bool
  error : Option String
  deriving DecidableEq

/-- The report `sendEventNotification` resolves with. -/
structure SendReport where
  success : Bool
  error : Option String
  successCount : Option Nat
  results : Option (List PushResult)
  deriving DecidableEq

/-- The settled outcomes of the concurrent pushes: the `i`-th push (to the
`i`-th resolved target) either fulfils or rejects with an error message
(`pushOutcome` is the environment's behaviour of `pushMessage`); every
rejection is caught and recorded as `{targetId, success: false, error}`. -/
def fanoutResults (targets : List String)
    (pushOutcome : Nat → String → Except String Unit) : List PushResult :=
  targets.enum.map (fun p =>
    match pushOutcome p.1 p.2 with
    | .ok _ => { targetId := p.2, success := true, error := none }
    | .error msg => { targetId := p.2, success := false, error := some msg })

/-- `results.filter(r => r.success).length`. -/
def successCountOf (rs : List PushResult) : Nat :=
  (rs.filter (fun r => r.success)).length

/-- The `storedEvent` written to history by `sendEventNotification`: the
ephemeral entry when `getEvent` finds one, else the event itself stamped
`storedAt: Date.now()`. -/
def storedEventOf (e : EventData) (now : Int) (store : EventStore) :
    EventData :=
  match (getEvent e.eventId now store).1 with
  | some s => s
  | none => { e with storedAt := some now }

/-- `sendEventNotification(eventData)` of `eventQueueService.js`: resolves
targets from the roster; with no targets returns a failure report and leaves
history untouched; otherwise pushes to every target concurrently, collects
per-target outcomes, and appends the stored event (ephemeral entry if
present, else the event stamped `storedAt: now`) to durable history exactly
when `successCount > 0`.  The call never throws: every push rejection is
caught, so the function is total and always returns a report. -/
def sendEventNotification (e : EventData)
    (entries : List (String × Option RosterUser))
    (pushOutcome : Nat → String → Except String Unit)
    (now : Int) (store : EventStore) (h : HistoryData) :
    SendReport × HistoryData :=
  let targets := resolveTargets entries
  if targets.length == 0 then
    ({ success := false, error := some "no targets",
       successCount := none, results := none }, h)
  else
    let results := fanoutResults targets pushOutcome
    let successCount := successCountOf results
    let h :=
      if successCount > 0 then
        appendEventToHistory (storedEventOf e now store) now h
      else h
    ({ success := true, error := none,
       successCount := some successCount, results := some results }, h)

/-! ## `lineBotController.js` — `handleEventReceiver` -/

/-- `config.server.eventToken` (from `config.js`, defaulting to the
placeholder `"your_unique_verification_token"` when `EVENT_TOKEN` is not
set in the environment). -/
structure ServerConfig where
  eventToken : Option String
  deriving DecidableEq

/-- The default placeholder value of `eventToken` in `config.js`. -/
def eventTokenPlaceholder : String := "your_unique_verification_token"

/-- The request headers the handler consults for the auth token. -/
structure WebhookHeaders where
  xCaToken : Option String
  token : Option String
  authorization : Option String
  xAuthToken : Option String
  xEventToken : Option String
  deriving DecidableEq

/-- `req.headers["x-ca-token"] || req.headers["token"] ||
req.headers["authorization"] || req.headers["x-auth-token"] ||
req.headers["x-event-token"]`. -/
def receivedToken (hs : WebhookHeaders) : Option String :=
  truthyS hs.xCaToken <|> truthyS hs.token <|> truthyS hs.authorization <|>
    truthyS hs.xAuthToken <|> truthyS hs.xEventToken

/-- `params` of the webhook body. -/
structure WebhookParams where
  ability : Option String
  events : List EventData
  deriving DecidableEq

/-- A webhook request body that parsed to an object; a missing or
non-object `req.body` is `none` at the call site. -/
structure WebhookBody where
  method : Option String
  params : Option WebhookParams
  deriving DecidableEq

/-- What `handleEventReceiver` does with a request: the HTTP status it
responds with, the events it hands to the asynchronous push pipeline (after
the duplicate filter — empty on every rejection path), and the controller's
dedup map afterwards. -/
structure WebhookResult where
  status : Nat
  dispatched : List EventData
  dedup : DedupMap
  deriving DecidableEq

/-- The controller's `isDuplicateEvent(eventId)` (same logic as the queue
service's, keyed directly by the id). -/
def ctrlIsDuplicate (eventId : Option String) (now : Int) (m : DedupMap) :
    Bool × DedupMap :=
  match truthyS eventId with
  | none => (false, m)
  | some eid =>
      match jsMapGet m eid with
      | some t =>
          if t != 0 && decide (now - t < eventDeduplicationTTL) then (true, m)
          else (false, jsMapSet m eid now)
      | none => (false, jsMapSet m eid now)

/-- `events.filter(ev => !this.isDuplicateEvent(ev.eventId))` — a stateful
filter threading the dedup map. -/
def filterUniqueEvents (events : List EventData) (now : Int) (m : DedupMap) :
    List EventData × DedupMap :=
  match events with
  | [] => ([], m)
  | ev :: rest =>
      match ctrlIsDuplicate ev.eventId now m with
      | (true, m) => filterUniqueEvents rest now m
      | (false, m) =>
          let (tail, m) := filterUniqueEvents rest now m
          (ev :: tail, m)

/-- The controller's target resolution: `Object.values(usersCfg.users)`
filtered to roles `admin`/`target`, mapped to `u.id || u.userId` (no key
fallback here, unlike the queue service) and `filter(Boolean)`. -/
def ctrlResolveTargets (users : List (Option RosterUser)) : List String :=
  (users.filter (fun u =>
      match u with
      | some u => u.role == some "admin" || u.role == some "target"
      | none => false)).filterMap (fun u =>
    match u with
    | some u => truthyS u.id <|> truthyS u.userId
    | none => none)

/-- The token guard of `handleEventReceiver`: the request is rejected
exactly when the configured `eventToken` is truthy, differs from the
placeholder, and the supplied token differs from it.  (So an unset, empty
or still-placeholder `eventToken` disables authentication.) -/
def tokenRejected (cfg : ServerConfig) (hs : WebhookHeaders) : Bool :=
  match truthyS cfg.eventToken with
  | some tok => tok != eventTokenPlaceholder && receivedToken hs != some tok
  | none => false

/-- `handleEventReceiver(req, res)` of `lineBotController.js`, up to the
hand-off of the unique events to the asynchronous push pipeline: body
validation (400), token check (401; skipped when the configured token is
falsy or still the placeholder), method check (400), then the 200 response
followed by target resolution and the duplicate filter.  `botClient` is
whether `this.lineBotService?.client` is truthy. -/
def handleEventReceiver (cfg : ServerConfig) (hs : WebhookHeaders)
    (body : Option WebhookBody) (users : List (Option RosterUser))
    (botClient : Bool) (now : Int) (m : DedupMap) : WebhookResult :=
  match body with
  | none => { status := 400, dispatched := [], dedup := m }
  | some b =>
      if tokenRejected cfg hs then
        { status := 401, dispatched := [], dedup := m }
      else if b.method != some "OnEventNotify" then
        { status := 400, dispatched := [], dedup := m }
      else
        let events := (b.params.map (fun p => p.events)).getD []
        if events.length != 0 && botClient then
          let targets := ctrlResolveTargets users
          if targets.length == 0 then
            { status := 200, dispatched := [], dedup := m }
          else
            let (uniqueEvents, m) := filterUniqueEvents events now m
            { status := 200, dispatched := uniqueEvents, dedup := m }
        else
          { status := 200, dispatched := [], dedup := m }

/-! ## Sample data used by witnesses and counterexamples -/

/-- A minimal inbound event carrying only an (optional) id. -/
def sampleEvent (eid : Option String) : EventData :=
  { eventId := eid, ability := none, eventType := none, happenTime := none,
    srcName := none, srcType := none, eventPicUri := none, storedAt := none,
    imageUrl := none, data := none }

/-- An empty webhook header set. -/
def noHeaders : WebhookHeaders :=
  { xCaToken := none, token := none, authorization := none,
    xAuthToken := none, xEventToken := none }

/-- A roster with a single admin user `U1`. -/
def oneAdminRoster : List (String × Option RosterUser) :=
  [("U1", some { role := some "admin", id := some "U1", userId := none })]

/-- A sequence of history appends, each with its wall-clock time
(`appendEventToHistory` applied left to right). -/
def appendAll (ps : List (EventData × Int)) (h : HistoryData) : HistoryData :=
  ps.foldl (fun acc p => appendEventToHistory p.1 p.2 acc) h

/-- A history document already at capacity, used by witnesses. -/
def fullHistory : HistoryData :=
  { events :=
      List.replicate maxHistorySize (mkHistoryItem (sampleEvent (some "old")) "old" 0)
    lastUpdated := none }

/-! ## Helper lemmas -/

theorem truthyS_some_ne (s : String) (hs : s ≠ "") :
    truthyS (some s) = some s := by
  simp [truthyS, hs]

theorem appendEventToHistory_events_eq (e : EventData) (now : Int)
    (h : HistoryData) (eid : String) (hid : truthyS e.eventId = some eid) :
    (appendEventToHistory e now h).events =
      (mkHistoryItem e eid now :: h.events).take maxHistorySize := by
  simp only [appendEventToHistory, hid]
  by_cases hc : (mkHistoryItem e eid now :: h.events).length > maxHistorySize
  · simp [hc]
  · simp only [hc, if_false]
    exact (List.take_of_length_le (Nat.le_of_not_lt hc)).symm

/-- The invariant tying a queue run to its acceptance trace: the dedup map
agrees, each lane holds only items routed to it, and for each lane the
dispatch log followed by the current lane content equals the accepted items
of that lane in acceptance order (so dispatch order within a lane is
acceptance order: FIFO). -/
abbrev laneInvariant (sl : QueueState × List EventItem)
    (ma : DedupMap × List EventItem) : Prop :=
  sl.1.processedEvents = ma.1 ∧
  (∀ it ∈ sl.1.priorityQueue, isHighItem it = true) ∧
  (∀ it ∈ sl.1.eventQueue, isHighItem it = false) ∧
  sl.2.filter isHighItem ++ sl.1.priorityQueue = ma.2.filter isHighItem ∧
  sl.2.filter (fun it => !isHighItem it) ++ sl.1.eventQueue =
    ma.2.filter (fun it => !isHighItem it)

theorem laneInvariant_step (sl : QueueState × List EventItem)
    (ma : DedupMap × List EventItem) (op : QueueOp)
    (h : laneInvariant sl ma) :
    laneInvariant (queueStep sl op) (acceptedStep ma op) := by
  obtain ⟨h1, h2, h3, h4, h5⟩ := h
  cases op with
  | enq e p t =>
      rcases hdup : isDuplicateEvent e t ma.1 with ⟨b, m⟩
      cases b with
      | true =>
          simp only [queueStep, acceptedStep, enqueueEvent, h1, hdup]
          exact ⟨rfl, h2, h3, h4, h5⟩
      | false =>
          by_cases hp : (p == "high") = true
          · simp only [queueStep, acceptedStep, enqueueEvent, h1, hdup, hp,
              if_true]
            refine ⟨rfl, ?_, h3, ?_, ?_⟩
            · intro it hit
              rcases List.mem_append.1 hit with hit | hit
              · exact h2 it hit
              · rcases List.mem_singleton.1 hit with rfl
                simpa [isHighItem] using hp
            · rw [List.filter_append, ← List.append_assoc, h4]
              simp [isHighItem, hp]
            · rw [List.filter_append, h5]
              simp [isHighItem, hp]
          · simp only [queueStep, acceptedStep, enqueueEvent, h1, hdup, hp,
              Bool.false_eq_true, if_false]
            refine ⟨rfl, h2, ?_, ?_, ?_⟩
            · intro it hit
              rcases List.mem_append.1 hit with hit | hit
              · exact h3 it hit
              · rcases List.mem_singleton.1 hit with rfl
                simpa [isHighItem] using hp
            · rw [List.filter_append, h4]
              simp [isHighItem, hp]
            · rw [List.filter_append, ← List.append_assoc, h5]
              simp [isHighItem, hp]
  | disp =>
      rcases hpq : sl.1.priorityQueue with _ | ⟨it, rest⟩
      · rcases heq : sl.1.eventQueue with _ | ⟨it, rest⟩
        · simp only [queueStep, acceptedStep, getNextEvent, hpq, heq]
          exact ⟨h1, by simp [hpq], by simp [heq], by simpa [hpq] using h4,
            by simpa [heq] using h5⟩
        · have hlow : isHighItem it = false := h3 it (by rw [heq]; exact List.mem_cons_self it rest)
          simp only [queueStep, acceptedStep, getNextEvent, hpq, heq]
          refine ⟨h1, by simp [hpq], ?_, ?_, ?_⟩
          · intro x hx
            exact h3 x (by rw [heq]; exact List.mem_cons_of_mem it hx)
          · rw [List.filter_append, List.append_assoc]
            simpa [hlow, hpq] using h4
          · rw [List.filter_append, List.append_assoc]
            rw [← h5, heq]
            simp [hlow]
      · have hhigh : isHighItem it = true := h2 it (by rw [hpq]; exact List.mem_cons_self it rest)
        simp only [queueStep, acceptedStep, getNextEvent, hpq]
        refine ⟨h1, ?_, h3, ?_, ?_⟩
        · intro x hx
          exact h2 x (by rw [hpq]; exact List.mem_cons_of_mem it hx)
        · rw [List.filter_append, List.append_assoc]
          rw [← h4, hpq]
          simp [hhigh]
        · rw [List.filter_append, List.append_assoc]
          simpa [hhigh] using h5

theorem laneInvariant_run (ops : List QueueOp)
    (sl : QueueState × List EventItem) (ma : DedupMap × List EventItem)
    (h : laneInvariant sl ma) :
    laneInvariant (ops.foldl queueStep sl) (ops.foldl acceptedStep ma) := by
  induction ops generalizing sl ma with
  | nil => exact h
  | cons op rest ih =>
      simp only [List.foldl_cons]
      exact ih _ _ (laneInvariant_step sl ma op h)

theorem appendEventToHistory_length_le (e : EventData) (now : Int)
    (h : HistoryData) (hlen : h.events.length ≤ maxHistorySize) :
    (appendEventToHistory e now h).events.length ≤ maxHistorySize := by
  rcases htp : truthyS e.eventId with _ | eid
  · simp [appendEventToHistory, htp, hlen]
  · rw [appendEventToHistory_events_eq e now h eid htp]
    simp [List.length_take]

theorem appendEventToHistory_no_trunc (e : EventData) (now : Int)
    (h : HistoryData) (eid : String) (hid : truthyS e.eventId = some eid)
    (hlen : h.events.length < maxHistorySize) :
    (appendEventToHistory e now h).events =
      mkHistoryItem e eid now :: h.events := by
  rw [appendEventToHistory_events_eq e now h eid hid]
  apply List.take_of_length_le
  simp only [List.length_cons]
  omega

theorem appendEventToHistory_length (e : EventData) (now : Int)
    (h : HistoryData) (eid : String) (hid : truthyS e.eventId = some eid) :
    (appendEventToHistory e now h).events.length =
      min (h.events.length + 1) maxHistorySize := by
  rw [appendEventToHistory_events_eq e now h eid hid]
  simp [List.length_take, Nat.min_comm]

/-- The record that `appendEventToHistory` writes for an event/time pair. -/
def historyProjection (p : EventData × Int) : HistoryItem :=
  mkHistoryItem p.1 ((truthyS p.1.eventId).getD "") p.2

theorem appendAll_events (ps : List (EventData × Int)) (h : HistoryData)
    (hids : ∀ p ∈ ps, (truthyS p.1.eventId).isSome = true)
    (hlen : h.events.length + ps.length ≤ maxHistorySize) :
    (appendAll ps h).events =
      (ps.map historyProjection).reverse ++ h.events := by
  induction ps generalizing h with
  | nil => simp [appendAll]
  | cons p rest ih =>
      obtain ⟨eid, heid⟩ := Option.isSome_iff_exists.1
        (hids p (List.mem_cons_self p rest))
      have hstep : (appendEventToHistory p.1 p.2 h).events =
          mkHistoryItem p.1 eid p.2 :: h.events := by
        apply appendEventToHistory_no_trunc p.1 p.2 h eid heid
        simp only [List.length_cons] at hlen
        omega
      have hres := ih (appendEventToHistory p.1 p.2 h)
        (fun q hq => hids q (List.mem_cons_of_mem p hq))
        (by rw [hstep]; simp only [List.length_cons]
            simp only [List.length_cons] at hlen
            omega)
      simp only [appendAll, List.foldl_cons] at hres ⊢
      rw [hres, hstep]
      have hproj : historyProjection p = mkHistoryItem p.1 eid p.2 := by
        simp [historyProjection, heid]
      simp [hproj, List.reverse_cons, List.append_assoc]

theorem appendAll_length (ps : List (EventData × Int)) (h : HistoryData)
    (hids : ∀ p ∈ ps, (truthyS p.1.eventId).isSome = true)
    (hlen : h.events.length ≤ maxHistorySize) :
    (appendAll ps h).events.length =
      min (h.events.length + ps.length) maxHistorySize := by
  induction ps generalizing h with
  | nil =>
      simp only [appendAll, List.foldl_nil, List.length_nil, Nat.add_zero]
      omega
  | cons p rest ih =>
      obtain ⟨eid, heid⟩ := Option.isSome_iff_exists.1
        (hids p (List.mem_cons_self p rest))
      have hstep := appendEventToHistory_length p.1 p.2 h eid heid
      have hres := ih (appendEventToHistory p.1 p.2 h)
        (fun q hq => hids q (List.mem_cons_of_mem p hq))
        (by rw [hstep]; omega)
      simp only [appendAll, List.foldl_cons] at hres ⊢
      rw [hres, hstep]
      simp only [List.length_cons]
      omega

theorem getEventHistory_total_nofilter (page pageSize : Int)
    (h : HistoryData) :
    (getEventHistory page pageSize none none h).total = h.events.length := by
  simp [getEventHistory, truthyS]

theorem getEventHistory_list_page1 (pageSize : Int) (h : HistoryData)
    (hpos : 0 < pageSize) :
    (getEventHistory 1 pageSize none none h).list =
      h.events.take pageSize.toNat := by
  simp [getEventHistory, truthyS, hpos]

/-! ## Theorems -/

/-- Claim C3 (confirmed).  Deduplicator window semantics of
`isDuplicateEvent`: a first call for an id that is not recorded returns
`false` and records the call time; any call within the TTL (60 s) of a
recorded (positive) time returns `true` without refreshing the timestamp,
so every duplicate in one window compares against the original admission
time; an event with no (or empty) `eventId` is never a duplicate and leaves
the map untouched. -/
theorem dedup_ttl_window_spec :
    (∀ (e : EventData) (now : Int) (m : DedupMap) (eid : String),
        truthyS e.eventId = some eid → jsMapGet m eid = none →
        isDuplicateEvent e now m = (false, jsMapSet m eid now)) ∧
    (∀ (e : EventData) (now t : Int) (m : DedupMap) (eid : String),
        truthyS e.eventId = some eid → jsMapGet m eid = some t →
        0 < t → now - t < eventDeduplicationTTL →
        isDuplicateEvent e now m = (true, m)) ∧
    (∀ (e : EventData) (now : Int) (m : DedupMap),
        truthyS e.eventId = none →
        isDuplicateEvent e now m = (false, m)) := by
  refine ⟨?_, ?_, ?_⟩
  · intro e now m eid h1 h2
    simp [isDuplicateEvent, h1, h2]
  · intro e now t m eid h1 h2 ht hlt
    have ht0 : t ≠ 0 := ne_of_gt ht
    simp [isDuplicateEvent, h1, h2, ht0, hlt]
  · intro e now m h1
    simp [isDuplicateEvent, h1]

/-- Witness for C3: concrete first call, duplicate call and id-less call. -/
theorem dedup_ttl_window_spec_witness :
    isDuplicateEvent (sampleEvent (some "e1")) 100 [] =
      (false, jsMapSet [] "e1" 100) ∧
    isDuplicateEvent (sampleEvent (some "e1")) 130 [("e1", 100)] =
      (true, [("e1", 100)]) ∧
    isDuplicateEvent (sampleEvent none) 100 [] = (false, []) :=
  ⟨dedup_ttl_window_spec.1 (sampleEvent (some "e1")) 100 [] "e1" rfl rfl,
   dedup_ttl_window_spec.2.1 (sampleEvent (some "e1")) 130 100 [("e1", 100)]
     "e1" rfl rfl (by decide) (by decide),
   dedup_ttl_window_spec.2.2 (sampleEvent none) 100 [] rfl⟩

/-- Claim C4 counterexample.  The claim says every declared priority other
than `"high"` (including `"medium"`) collapses to `"normal"` and the
classifier never returns a value outside `{high, normal}`; but a config
declaring `priority: "low"` is returned verbatim, a value outside that
set. -/
theorem priority_classifier_counterexample :
    calculateEventPriority
        (some { name := none, priority := some "low", ability := none }) =
      "low" ∧
    ("low" : String) ≠ "high" ∧ ("low" : String) ≠ "normal" := by
  decide

/-- Claim C4 (corrected).  `calculateEventPriority` returns `"high"` exactly
when the external config declares a truthy priority `"high"`; a declared
`"medium"`, an undeclared (falsy) priority, and an absent config all yield
`"normal"`; any other declared value is returned verbatim rather than
collapsing to `"normal"` (the queue then routes every value other than
`"high"` to the normal lane). -/
theorem priority_classifier_amended :
    (∀ cfg : Option EventTypeConfig,
        calculateEventPriority cfg = "high" ↔
          ∃ c, cfg = some c ∧ truthyS c.priority = some "high") ∧
    calculateEventPriority none = "normal" ∧
    (∀ c : EventTypeConfig, truthyS c.priority = some "medium" →
        calculateEventPriority (some c) = "normal") ∧
    (∀ c : EventTypeConfig, truthyS c.priority = none →
        calculateEventPriority (some c) = "normal") ∧
    (∀ (c : EventTypeConfig) (p : String), truthyS c.priority = some p →
        p ≠ "medium" → calculateEventPriority (some c) = p) := by
  refine ⟨?_, rfl, ?_, ?_, ?_⟩
  · intro cfg
    constructor
    · intro hres
      cases cfg with
      | none => exact absurd hres (by decide)
      | some c =>
          refine ⟨c, rfl, ?_⟩
          simp only [calculateEventPriority] at hres
          rcases htp : truthyS c.priority with _ | p
          · simp only [htp] at hres
            exact absurd hres (by decide)
          · simp only [htp] at hres
            by_cases hp : p = "medium"
            · rw [hp] at hres
              exact absurd hres (by decide)
            · simp only [beq_iff_eq, hp, if_false] at hres
              rw [hres]
    · rintro ⟨c, rfl, hc⟩
      simp [calculateEventPriority, hc]
  · intro c hc
    simp [calculateEventPriority, hc]
  · intro c hc
    simp [calculateEventPriority, hc]
  · intro c p hc hp
    simp [calculateEventPriority, hc, hp]

/-- Witness for C4 (amended): a `"high"` config is high, a `"medium"` config
and a missing config are normal, and `"low"` passes through. -/
theorem priority_classifier_amended_witness :
    calculateEventPriority
        (some { name := none, priority := some "high", ability := none }) =
      "high" ∧
    calculateEventPriority
        (some { name := none, priority := some "medium", ability := none }) =
      "normal" ∧
    calculateEventPriority none = "normal" ∧
    calculateEventPriority
        (some { name := none, priority := some "low", ability := none }) =
      "low" :=
  ⟨(priority_classifier_amended.1
      (some { name := none, priority := some "high", ability := none })).mpr
      ⟨_, rfl, rfl⟩,
   priority_classifier_amended.2.2.1
     { name := none, priority := some "medium", ability := none } rfl,
   priority_classifier_amended.2.1,
   priority_classifier_amended.2.2.2.2
     { name := none, priority := some "low", ability := none } "low" rfl
     (by decide)⟩

/-- Claim C10 (confirmed).  An event whose `eventId` is falsy (absent or
empty) is refused atomically by the storage layer: `storeEvent` returns
`false` and leaves the ephemeral map unchanged, and `appendEventToHistory`
returns the history document unchanged, so an id-less event can appear
neither in the ephemeral store nor in durable history. -/
theorem idless_event_rejected (e : EventData) (now : Int) (m : EventStore)
    (h : HistoryData) (hid : truthyS e.eventId = none) :
    storeEvent e now m = (false, m) ∧ appendEventToHistory e now h = h := by
  constructor
  · simp [storeEvent, hid]
  · simp [appendEventToHistory, hid]

/-- Witness for C10: an event with no id and an event with an empty id are
both refused against a concrete store and history. -/
theorem idless_event_rejected_witness :
    (truthyS (sampleEvent none).eventId = none ∧
      storeEvent (sampleEvent none) 5 [] = (false, []) ∧
      appendEventToHistory (sampleEvent none) 5 emptyHistory = emptyHistory) ∧
    (truthyS (sampleEvent (some "")).eventId = none ∧
      storeEvent (sampleEvent (some "")) 5 [] = (false, []) ∧
      appendEventToHistory (sampleEvent (some "")) 5 emptyHistory =
        emptyHistory) :=
  ⟨⟨rfl, idless_event_rejected (sampleEvent none) 5 [] emptyHistory rfl⟩,
   ⟨rfl, idless_event_rejected (sampleEvent (some "")) 5 [] emptyHistory rfl⟩⟩

/-- Claim C1 counterexample.  The history gate is not `successCount >= 1`
alone: an event lacking an `eventId` that is pushed successfully to one
target (`successCount = 1`) is still not appended to history, because
`appendEventToHistory` refuses id-less records. -/
theorem fanout_history_gate_counterexample :
    (sendEventNotification (sampleEvent none) oneAdminRoster
        (fun _ _ => Except.ok ()) 1000 [] emptyHistory).1.successCount =
      some 1 ∧
    (sendEventNotification (sampleEvent none) oneAdminRoster
        (fun _ _ => Except.ok ()) 1000 [] emptyHistory).2 = emptyHistory := by
  constructor <;> rfl

/-- Claim C1 (corrected).  For every event whose stored record carries a
truthy `eventId`: with no targets the call reports failure and leaves
history untouched; with targets, the call always returns a report with one
independent `{targetId, success}` outcome per target (the embedding is a
total function — every push rejection is caught, so the call never throws),
the event is appended to durable history exactly once (at the front) when
`successCount >= 1`, and history is untouched when every push failed.  For
an id-less event the append is refused even on success, as the
counterexample shows. -/
theorem fanout_history_gate_amended (e : EventData)
    (entries : List (String × Option RosterUser))
    (po : Nat → String → Except String Unit) (now : Int)
    (store : EventStore) (h : HistoryData) (eid : String)
    (hid : truthyS (storedEventOf e now store).eventId = some eid) :
    (resolveTargets entries = [] →
        sendEventNotification e entries po now store h =
          ({ success := false, error := some "no targets",
             successCount := none, results := none }, h)) ∧
    (resolveTargets entries ≠ [] →
        (sendEventNotification e entries po now store h).1 =
          { success := true, error := none
            successCount :=
              some (successCountOf (fanoutResults (resolveTargets entries) po))
            results := some (fanoutResults (resolveTargets entries) po) } ∧
        (fanoutResults (resolveTargets entries) po).length =
          (resolveTargets entries).length ∧
        (1 ≤ successCountOf (fanoutResults (resolveTargets entries) po) →
            (sendEventNotification e entries po now store h).2.events =
              mkHistoryItem (storedEventOf e now store) eid now ::
                h.events.take (maxHistorySize - 1)) ∧
        (successCountOf (fanoutResults (resolveTargets entries) po) = 0 →
            (sendEventNotification e entries po now store h).2 = h)) := by
  constructor
  · intro hempty
    simp [sendEventNotification, hempty]
  · intro hne
    have hlen0 : ((resolveTargets entries).length == 0) = false := by
      rw [beq_eq_false_iff_ne]
      simpa [List.length_eq_zero] using hne
    refine ⟨?_, ?_, ?_, ?_⟩
    · simp only [sendEventNotification, hlen0, Bool.false_eq_true, if_false]
    · simp [fanoutResults, List.enum_length]
    · intro hcnt
      have hgate : 0 < successCountOf
          (fanoutResults (resolveTargets entries) po) := hcnt
      simp only [sendEventNotification, hlen0, Bool.false_eq_true, if_false,
        gt_iff_lt, hgate, if_true]
      rw [appendEventToHistory_events_eq (storedEventOf e now store) now h
        eid hid]
      rw [show maxHistorySize = 299 + 1 from rfl, List.take_succ_cons]
    · intro hcnt
      simp only [sendEventNotification, hlen0, Bool.false_eq_true, if_false,
        gt_iff_lt, hcnt]
      simp

/-- Witness for C1 (amended): one admin target, one successful push — the
report records the outcome and the event is appended once at the front. -/
theorem fanout_history_gate_amended_witness :
    truthyS (storedEventOf (sampleEvent (some "e1")) 1000 []).eventId =
      some "e1" ∧
    resolveTargets oneAdminRoster ≠ [] ∧
    1 ≤ successCountOf
      (fanoutResults (resolveTargets oneAdminRoster)
        (fun _ _ => Except.ok ())) ∧
    (sendEventNotification (sampleEvent (some "e1")) oneAdminRoster
        (fun _ _ => Except.ok ()) 1000 [] emptyHistory).2.events =
      mkHistoryItem (storedEventOf (sampleEvent (some "e1")) 1000 []) "e1"
          1000 ::
        emptyHistory.events.take (maxHistorySize - 1) :=
  ⟨rfl, by decide, by decide,
   ((fanout_history_gate_amended (sampleEvent (some "e1")) oneAdminRoster
        (fun _ _ => Except.ok ()) 1000 [] emptyHistory "e1" rfl).2
      (by decide)).2.2.1 (by decide)⟩

/-- Claim C8 counterexample.  With `eventToken` still at its factory
placeholder (`config.js` default), a request whose supplied token does not
equal that configured value is NOT rejected: the handler answers 200 and
dispatches the request's events. -/
theorem webhook_auth_counterexample :
    handleEventReceiver { eventToken := some eventTokenPlaceholder }
        { noHeaders with xCaToken := some "wrong-token" }
        (some { method := some "OnEventNotify",
                params := some { ability := none,
                                 events := [sampleEvent (some "e9")] } })
        [some { role := some "admin", id := some "U1", userId := none }]
        true 1000 [] =
      { status := 200, dispatched := [sampleEvent (some "e9")],
        dedup := [("e9", 1000)] } := by
  decide

/-- Claim C8 (corrected).  Webhook rejection paths: a missing or non-object
body is answered 400 with nothing dispatched and the dedup state untouched;
a supplied token differing from the configured secret is answered 401 with
nothing dispatched, PROVIDED the configured `eventToken` is truthy and not
the factory placeholder (otherwise authentication is skipped entirely, as
the counterexample shows); and once the token guard passes, a method other
than `OnEventNotify` is answered 400 with nothing dispatched. -/
theorem webhook_rejection_amended :
    (∀ (cfg : ServerConfig) (hs : WebhookHeaders)
        (users : List (Option RosterUser)) (bc : Bool) (now : Int)
        (m : DedupMap),
        handleEventReceiver cfg hs none users bc now m =
          { status := 400, dispatched := [], dedup := m }) ∧
    (∀ (cfg : ServerConfig) (hs : WebhookHeaders) (b : WebhookBody)
        (users : List (Option RosterUser)) (bc : Bool) (now : Int)
        (m : DedupMap) (tok : String),
        truthyS cfg.eventToken = some tok → tok ≠ eventTokenPlaceholder →
        receivedToken hs ≠ some tok →
        handleEventReceiver cfg hs (some b) users bc now m =
          { status := 401, dispatched := [], dedup := m }) ∧
    (∀ (cfg : ServerConfig) (hs : WebhookHeaders) (b : WebhookBody)
        (users : List (Option RosterUser)) (bc : Bool) (now : Int)
        (m : DedupMap),
        tokenRejected cfg hs = false →
        b.method ≠ some "OnEventNotify" →
        handleEventReceiver cfg hs (some b) users bc now m =
          { status := 400, dispatched := [], dedup := m }) := by
  refine ⟨?_, ?_, ?_⟩
  · intro cfg hs users bc now m
    rfl
  · intro cfg hs b users bc now m tok h1 h2 h3
    have hrej : tokenRejected cfg hs = true := by
      simp [tokenRejected, h1, h2, h3]
    simp [handleEventReceiver, hrej]
  · intro cfg hs b users bc now m htok hmethod
    simp [handleEventReceiver, htok, hmethod]

/-- Witness for C8 (amended): concrete missing body, mismatched token with a
real secret, and an unknown method. -/
theorem webhook_rejection_amended_witness :
    handleEventReceiver { eventToken := some "secret-token" } noHeaders none
        [] true 5 [] =
      { status := 400, dispatched := [], dedup := [] } ∧
    handleEventReceiver { eventToken := some "secret-token" }
        { noHeaders with token := some "bad" }
        (some { method := some "OnEventNotify", params := none }) [] true 5
        [] =
      { status := 401, dispatched := [], dedup := [] } ∧
    handleEventReceiver { eventToken := none } noHeaders
        (some { method := some "SomethingElse", params := none }) [] true 5
        [] =
      { status := 400, dispatched := [], dedup := [] } :=
  ⟨webhook_rejection_amended.1 _ _ _ _ _ _,
   webhook_rejection_amended.2.1 _ _ _ _ _ _ _ "secret-token" (by decide)
     (by decide) (by decide),
   webhook_rejection_amended.2.2 _ _ _ _ _ _ _ (by decide) (by decide)⟩

/-- Claim C2 (confirmed).  Dispatch discipline of the queue: (1) at every
dispatch decision, if the priority lane is non-empty then `getNextEvent`
returns exactly its head and removes it, leaving the normal lane untouched
(strict priority); (2) over any run of enqueue and dispatch operations from
the initial state, the dispatch log restricted to a lane followed by the
lane's remaining content equals the accepted items of that lane in
acceptance order — so items leave each lane in FIFO order of enqueue. -/
theorem queue_priority_fifo_spec :
    (∀ s : QueueState, s.priorityQueue ≠ [] →
        (getNextEvent s).1 = s.priorityQueue.head? ∧
        (getNextEvent s).2.priorityQueue = s.priorityQueue.tail ∧
        (getNextEvent s).2.eventQueue = s.eventQueue) ∧
    (∀ ops : List QueueOp,
        (runQueue ops).2.filter isHighItem ++ (runQueue ops).1.priorityQueue =
          (acceptedItems ops).filter isHighItem ∧
        (runQueue ops).2.filter (fun it => !isHighItem it) ++
            (runQueue ops).1.eventQueue =
          (acceptedItems ops).filter (fun it => !isHighItem it)) := by
  constructor
  · intro s hne
    rcases hpq : s.priorityQueue with _ | ⟨it, rest⟩
    · exact absurd hpq hne
    · exact ⟨by simp [getNextEvent, hpq], by simp [getNextEvent, hpq],
        by simp [getNextEvent, hpq]⟩
  · intro ops
    have hinit : laneInvariant (initQueueState, ([] : List EventItem))
        (([] : DedupMap), ([] : List EventItem)) := by
      refine ⟨rfl, ?_, ?_, ?_, ?_⟩ <;> simp [initQueueState]
    have hrun := laneInvariant_run ops (initQueueState, []) ([], []) hinit
    exact ⟨hrun.2.2.2.1, hrun.2.2.2.2⟩

/-- A concrete queue state and run used by the C2 witness: one normal item
queued before one high item, then two dispatch decisions. -/
def sampleQueueState : QueueState :=
  { eventQueue :=
      [{ data := sampleEvent (some "n1"), enqueuedAt := 1, priority := "normal" }]
    priorityQueue :=
      [{ data := sampleEvent (some "h1"), enqueuedAt := 2, priority := "high" }]
    processedEvents := [] }

/-- The operation sequence for the C2 witness. -/
def sampleQueueOps : List QueueOp :=
  [.enq (sampleEvent (some "n1")) "normal" 1,
   .enq (sampleEvent (some "h1")) "high" 2,
   .disp, .disp]

/-- Witness for C2: with a non-empty priority lane the head of the priority
lane is dispatched, and the FIFO lane equations hold on a concrete run. -/
theorem queue_priority_fifo_spec_witness :
    sampleQueueState.priorityQueue ≠ [] ∧
    (getNextEvent sampleQueueState).1 = sampleQueueState.priorityQueue.head? ∧
    ((runQueue sampleQueueOps).2.filter isHighItem ++
        (runQueue sampleQueueOps).1.priorityQueue =
      (acceptedItems sampleQueueOps).filter isHighItem) :=
  ⟨by decide,
   (queue_priority_fifo_spec.1 sampleQueueState (by decide)).1,
   (queue_priority_fifo_spec.2 sampleQueueOps).1⟩

/-- Claim C6 (confirmed).  Capacity of the durable history: any sequence of
appends starting from a history within capacity stays within
`maxHistorySize` (300); and an append to a history exactly at capacity
places the new record at the front and evicts exactly the oldest record
(the last, since the list is newest-first). -/
theorem history_capacity_spec :
    (∀ (ps : List (EventData × Int)) (h : HistoryData),
        h.events.length ≤ maxHistorySize →
        (appendAll ps h).events.length ≤ maxHistorySize) ∧
    (∀ (e : EventData) (now : Int) (h : HistoryData) (eid : String),
        truthyS e.eventId = some eid →
        h.events.length = maxHistorySize →
        (appendEventToHistory e now h).events =
          mkHistoryItem e eid now :: h.events.dropLast) := by
  constructor
  · intro ps
    induction ps with
    | nil => intro h hlen; exact hlen
    | cons p rest ih =>
        intro h hlen
        simp only [appendAll, List.foldl_cons]
        exact ih _ (appendEventToHistory_length_le p.1 p.2 h hlen)
  · intro e now h eid hid hlen
    rw [appendEventToHistory_events_eq e now h eid hid]
    rw [show maxHistorySize = 299 + 1 from rfl, List.take_succ_cons]
    congr 1
    rw [List.dropLast_eq_take, hlen]
    rfl

/-- Witness for C6: appending a fresh event to a history of exactly 300
records keeps the length at 300 and evicts exactly the oldest record. -/
theorem history_capacity_spec_witness :
    fullHistory.events.length = maxHistorySize ∧
    truthyS (sampleEvent (some "new")).eventId = some "new" ∧
    (appendAll [(sampleEvent (some "new"), 7)] fullHistory).events.length ≤
      maxHistorySize ∧
    (appendEventToHistory (sampleEvent (some "new")) 7 fullHistory).events =
      mkHistoryItem (sampleEvent (some "new")) "new" 7 ::
        fullHistory.events.dropLast :=
  ⟨by simp [fullHistory], rfl,
   history_capacity_spec.1 [(sampleEvent (some "new"), 7)] fullHistory
     (by simp [fullHistory]),
   history_capacity_spec.2 (sampleEvent (some "new")) 7 fullHistory "new" rfl
     (by simp [fullHistory])⟩

/-- Claim C7 (confirmed).  `updateEventImage(eventId, url)` on a history
containing a record with that id: (1) the new history is the old one with
`imageUrl` rewritten on exactly the matching records; (2) positionally,
every non-matching record is byte-identical and a matching record differs
only in its `imageUrl` field; (3) applying the update twice yields the same
record list as applying it once (idempotence); (4) the resulting history
does not depend on the ephemeral store at all, so the update succeeds on
the durable record even after the id aged out of the ephemeral store. -/
theorem update_image_frame_spec (eid url : String) (now now2 : Int)
    (m m2 : EventStore) (h : HistoryData)
    (heid : eid ≠ "") (hurl : url ≠ "")
    (hmem : h.events.any (fun ev => ev.eventId == eid) = true) :
    (∀ ev : HistoryItem, ev.eventId ≠ eid → setImageOn eid url ev = ev) ∧
    (∀ ev : HistoryItem, ev.eventId = eid →
        setImageOn eid url ev = { ev with imageUrl := some url }) ∧
    ((updateEventImage (some eid) (some url) now m h).2.events =
        h.events.map (setImageOn eid url)) ∧
    (∀ i : Nat,
        (updateEventImage (some eid) (some url) now m h).2.events[i]? =
          (h.events[i]?).map (setImageOn eid url)) ∧
    ((updateEventImage (some eid) (some url) now2 m2
        (updateEventImage (some eid) (some url) now m h).2).2.events =
      (updateEventImage (some eid) (some url) now m h).2.events) ∧
    ((updateEventImage (some eid) (some url) now m2 h).2 =
      (updateEventImage (some eid) (some url) now m h).2) := by
  have hfix : ∀ ev : HistoryItem,
      (setImageOn eid url ev).eventId = ev.eventId := by
    intro ev
    by_cases hev : ev.eventId = eid <;> simp [setImageOn, hev]
  have hidem : ∀ ev : HistoryItem,
      setImageOn eid url (setImageOn eid url ev) = setImageOn eid url ev := by
    intro ev
    by_cases hev : ev.eventId = eid <;> simp [setImageOn, hev]
  have unfold1 : ∀ (mm : EventStore),
      (updateEventImage (some eid) (some url) now mm h).2 =
        { events := h.events.map (setImageOn eid url)
          lastUpdated := some now } := by
    intro mm
    simp only [updateEventImage, truthyS_some_ne eid heid,
      truthyS_some_ne url hurl, hmem, if_true]
  refine ⟨?_, ?_, ?_, ?_, ?_, ?_⟩
  · intro ev hev
    simp [setImageOn, hev]
  · intro ev hev
    simp [setImageOn, hev]
  · rw [unfold1 m]
  · intro i
    rw [unfold1 m]
    exact List.getElem?_map (setImageOn eid url) h.events i
  · rw [unfold1 m]
    have hmem2 : (h.events.map (setImageOn eid url)).any
        (fun ev => ev.eventId == eid) = true := by
      rw [List.any_map]
      rw [show ((fun (ev : HistoryItem) => ev.eventId == eid) ∘
          setImageOn eid url) = (fun ev => ev.eventId == eid) from ?_]
      · exact hmem
      · funext ev
        simp [Function.comp, hfix ev]
    simp only [updateEventImage, truthyS_some_ne eid heid,
      truthyS_some_ne url hurl, hmem2, if_true]
    rw [List.map_map]
    apply List.map_congr_left
    intro ev _
    exact hidem ev
  · rw [unfold1 m, unfold1 m2]

/-- Witness for C7: a two-record history where only the matching record's
`imageUrl` changes, reused under a different store and a second update. -/
theorem update_image_frame_spec_witness :
    ("e1" : String) ≠ "" ∧ ("http://img" : String) ≠ "" ∧
    ([mkHistoryItem (sampleEvent (some "e1")) "e1" 1,
      mkHistoryItem (sampleEvent (some "e2")) "e2" 2].any
        (fun ev => ev.eventId == "e1") = true) ∧
    ((updateEventImage (some "e1") (some "http://img") 9 []
        { events := [mkHistoryItem (sampleEvent (some "e1")) "e1" 1,
                     mkHistoryItem (sampleEvent (some "e2")) "e2" 2]
          lastUpdated := none }).2.events =
      [mkHistoryItem (sampleEvent (some "e1")) "e1" 1,
       mkHistoryItem (sampleEvent (some "e2")) "e2" 2].map
        (setImageOn "e1" "http://img")) :=
  ⟨by decide, by decide, by decide,
   (update_image_frame_spec "e1" "http://img" 9 9 [] []
      { events := [mkHistoryItem (sampleEvent (some "e1")) "e1" 1,
                   mkHistoryItem (sampleEvent (some "e2")) "e2" 2]
        lastUpdated := none }
      (by decide) (by decide) (by decide)).2.2.1⟩

/-- Claim C9 counterexample.  The round-trip fails for `N = 301`: appending
301 events to an empty history retains only 300 records (capacity
eviction), so the listing's `total` is 300, not 301. -/
theorem history_roundtrip_counterexample :
    (getEventHistory 1 301 none none
        (appendAll (List.replicate 301 (sampleEvent (some "x"), 0))
          emptyHistory)).total = 300 ∧
    (300 : Nat) ≠ 301 := by
  constructor
  · have hlen : (appendAll (List.replicate 301 (sampleEvent (some "x"), 0))
        emptyHistory).events.length = 300 := by
      rw [appendAll_length]
      · simp only [emptyHistory, List.length_replicate, List.length_nil,
          maxHistorySize]
        omega
      · intro p hp
        rw [List.eq_of_mem_replicate hp]
        decide
      · simp [emptyHistory]
    rw [getEventHistory_total_nofilter, hlen]
  · decide

/-- Claim C9 (corrected).  Round-trip for any `N ≤ maxHistorySize` (300):
appending `N` events (each with a truthy id) to an empty history and then
listing page 1 with `pageSize = N` returns exactly the `N` projected
records, newest-first (the reverse of insertion order), with `total = N`.
For `N` above capacity the oldest records are evicted, as the
counterexample shows. -/
theorem history_roundtrip_amended (ps : List (EventData × Int))
    (hids : ∀ p ∈ ps, (truthyS p.1.eventId).isSome = true)
    (hlen : ps.length ≤ maxHistorySize) :
    (getEventHistory 1 (ps.length : Int) none none
        (appendAll ps emptyHistory)).list =
      (ps.map historyProjection).reverse ∧
    (getEventHistory 1 (ps.length : Int) none none
        (appendAll ps emptyHistory)).total = ps.length := by
  have hev : (appendAll ps emptyHistory).events =
      (ps.map historyProjection).reverse := by
    have := appendAll_events ps emptyHistory hids
      (by simpa [emptyHistory] using hlen)
    simpa [emptyHistory] using this
  rcases ps with _ | ⟨p, rest⟩
  · constructor
    · simp only [appendAll, List.foldl_nil] at hev ⊢
      simp [getEventHistory, truthyS, emptyHistory]
    · rw [getEventHistory_total_nofilter]
      simp [hev]
  · have hpos : (0 : Int) < ((p :: rest).length : Int) := by
      exact_mod_cast Nat.succ_pos rest.length
    constructor
    · rw [getEventHistory_list_page1 _ _ hpos, hev, Int.toNat_natCast]
      apply List.take_of_length_le
      simp
    · rw [getEventHistory_total_nofilter, hev]
      simp

/-- Witness for C9 (amended): two concrete events round-trip newest-first. -/
theorem history_roundtrip_amended_witness :
    (∀ p ∈ [(sampleEvent (some "a"), (1 : Int)),
            (sampleEvent (some "b"), (2 : Int))],
        (truthyS p.1.eventId).isSome = true) ∧
    ([(sampleEvent (some "a"), (1 : Int)),
      (sampleEvent (some "b"), (2 : Int))].length ≤ maxHistorySize) ∧
    (getEventHistory 1 2 none none
        (appendAll [(sampleEvent (some "a"), (1 : Int)),
                    (sampleEvent (some "b"), (2 : Int))] emptyHistory)).list =
      ([(sampleEvent (some "a"), (1 : Int)),
        (sampleEvent (some "b"), (2 : Int))].map historyProjection).reverse ∧
    (getEventHistory 1 2 none none
        (appendAll [(sampleEvent (some "a"), (1 : Int)),
                    (sampleEvent (some "b"), (2 : Int))] emptyHistory)).total =
      2 :=
  ⟨by decide, by decide,
   (history_roundtrip_amended
      [(sampleEvent (some "a"), (1 : Int)), (sampleEvent (some "b"), (2 : Int))]
      (by decide) (by decide)).1,
   (history_roundtrip_amended
      [(sampleEvent (some "a"), (1 : Int)), (sampleEvent (some "b"), (2 : Int))]
      (by decide) (by decide)).2⟩

/-- Claim C5 counterexample.  Two overlapping `enforceRateLimit` calls both
read `lastSendTime = 0` before either writes it back: task A calls at
t = 1000 and suspends until t = 5000; task B calls at t = 1001 (while A
sleeps) and also suspends until t = 5000; both timers fire and both calls
are admitted at t = 5000 — two consecutive admissions 0 ms apart, violating
the claimed global `minSendInterval` spacing. -/
theorem rate_limit_concurrent_counterexample :
    (rlFinish false (rlFinish true
        (rlCall false 1001 (rlCall true 1000 initRLMachine)))).admissions =
      [5000, 5000] ∧
    ¬ ((5000 : Int) - 5000 ≥ minSendInterval) := by
  decide

/-- Claim C5 (corrected).  The spacing guarantee holds for sequential
(non-overlapping) calls: when a call of `enforceRateLimit` runs to
completion and a later call then runs to completion against the
`lastSendTime` the first call wrote, the two admission times are at least
`minSendInterval` apart.  (Under concurrent overlapping calls the guarantee
fails, as the counterexample shows.) -/
theorem rate_limit_sequential_spacing (lastSendTime s1 s2 : Int) :
    minSendInterval ≤
      (enforceRateLimit (enforceRateLimit lastSendTime s1).2 s2).1 -
        (enforceRateLimit lastSendTime s1).1 := by
  simp only [enforceRateLimit]
  split <;> split <;> simp <;> omega

end YSCP
